import Mathlib

/-!
Verification of the task-registration, deployment and coordinator-protocol
subsystem of the trigger.dev repository against its specification.

The definitions below are a shallow embedding of the TypeScript source:

* `CreateBackgroundWorkerService.call`, `createBackgroundTasks` and the
  `taskQueue.upsert` call embed
  `apps/webapp/.../createBackgroundWorker.server` (the background worker
  registry), with the Prisma database modelled as an explicit record of
  row lists and the `marqs` admission layer as a log of
  `updateQueueConcurrency` invocations.
* `waitForDeploymentToComplete`, `deployAfterCompile`,
  `gatherRequiredDependencies`, `computeContentHash` and
  `arrayToSentence` embed the corresponding functions of the CLI deploy
  command source.  Polling time is idealised: a poll is instantaneous and
  only the 1-second sleep advances the clock.
* The message-map definitions at the end embed
  `packages/core/src/v3/schemas/schemas.ts` as declarative descriptions
  of each zod schema (field names, field types, version tag, callback
  envelope shape).
-/

/-! ### Deployment status and the polling loop (CLI deploy command) -/

/-- Persisted deployment status values, as displayed by the dashboard. -/
inductive DeploymentStatus where
  | PENDING
  | BUILDING
  | DEPLOYING
  | DEPLOYED
  | ERROR
deriving DecidableEq

/-- The deployment data returned by `client.getDeployment`; only the
`status` field is inspected by the polling loop. -/
structure DeploymentRecord where
  status : DeploymentStatus
deriving DecidableEq

/-- An API response: `success` carries `data`, otherwise the response has an
`error` string (`deployment.success` / `deployment.error` in the source). -/
inductive ApiResult (α : Type) where
  | success (data : α)
  | failure (error : String)
deriving DecidableEq

/-- Outcome of `waitForDeploymentToComplete`: an exception thrown from the
loop, a plain `return` with no value (the timeout path), or a return of the
deployment data (the `DEPLOYED` path). -/
inductive PollOutcome where
  | thrown (error : String)
  | incomplete
  | completed (deployment : DeploymentRecord)
deriving DecidableEq

/-- The fixed sleep between polls: `await setTimeout(1000)`. -/
def pollIntervalMs : Nat := 1000

/-- The default value of the `timeoutInSeconds` parameter of
`waitForDeploymentToComplete`. -/
def defaultTimeoutInSeconds : Nat := 60

/-- The `while (true)` loop of `waitForDeploymentToComplete`.  `getDeployment
k` is the response to the k-th status poll.  Each iteration first checks
`Date.now() - start > timeoutInSeconds * 1000` and returns with no value if
it has elapsed; a failed response throws; a `DEPLOYED` status returns the
data; anything else sleeps `pollIntervalMs` and loops.  The `fuel` argument
only bounds the recursion: with the fuel used by
`waitForDeploymentToComplete` below, the elapsed-time check always fires
strictly before fuel runs out, so the fuel-exhaustion branch is
unreachable (it conservatively returns the same value as the timeout). -/
def waitLoop (getDeployment : Nat → ApiResult DeploymentRecord) (timeoutInSeconds : Nat) :
    Nat → Nat → Nat → PollOutcome
  | _, _, 0 => PollOutcome.incomplete
  | k, elapsedMs, fuel + 1 =>
    if elapsedMs > timeoutInSeconds * 1000 then PollOutcome.incomplete
    else
      match getDeployment k with
      | ApiResult.failure e => PollOutcome.thrown e
      | ApiResult.success d =>
        if d.status = DeploymentStatus.DEPLOYED then PollOutcome.completed d
        else waitLoop getDeployment timeoutInSeconds (k + 1) (elapsedMs + pollIntervalMs) fuel

/-- `waitForDeploymentToComplete(deploymentId, client, timeoutInSeconds)`:
poll every second until `DEPLOYED`, a failed request, or the timeout.
Iteration `k` runs at elapsed time `k * pollIntervalMs`, and the time check
fires at iteration `timeoutInSeconds + 1`, so `timeoutInSeconds + 2` fuel
strictly dominates the number of iterations. -/
def waitForDeploymentToComplete (getDeployment : Nat → ApiResult DeploymentRecord)
    (timeoutInSeconds : Nat) : PollOutcome :=
  waitLoop getDeployment timeoutInSeconds 0 0 (timeoutInSeconds + 2)

/-- `waitForDeploymentToComplete` with the default 60-second timeout, as used
by `deployCommand`. -/
def waitForDeploymentToCompleteDefault (getDeployment : Nat → ApiResult DeploymentRecord) :
    PollOutcome :=
  waitForDeploymentToComplete getDeployment defaultTimeoutInSeconds

/-! ### The environment-variable gate of `deployCommand` -/

/-- `arrayToSentence` from the deploy command source. -/
def arrayToSentence (items : List String) : String :=
  if items.length = 1 then items.headD ""
  else if items.length = 2 then items.headD "" ++ " and " ++ (items.getD 1 "")
  else String.intercalate ", " items.dropLast ++ ", and " ++ items.getLastD ""

/-- The filter `environmentVariables.data.variables[envVar] === undefined`
applied to `compilation.envVars`: the referenced environment variable names
missing from the registered map. -/
def missingEnvironmentVariables (compiledEnvVars : List String)
    (registeredVariables : List (String × String)) : List String :=
  compiledEnvVars.filter (fun v => (registeredVariables.lookup v).isNone)

/-- The error message printed (once) when the gate fails. -/
def missingEnvVarsMessage (missing : List String) : String :=
  "Project missing env vars: " ++ arrayToSentence missing ++ ". Aborting deployment."

/-- The stages of `deployCommand` that follow compilation, in source order. -/
inductive DeployStep where
  | checkEnvVars
  | initDeployment
  | buildImage
  | startIndexing
  | waitForDeployment
deriving DecidableEq

/-- The portion of `deployCommand` after `compileProject` succeeds, up to the
control decision made by the environment-variable gate.  `fetchedVariables =
none` models a failed `getEnvironmentVariables` request (the source then
skips the check and proceeds).  The result pairs the steps the command
reaches with `some missing` when the gate aborts (`exit(1)` after one
consolidated message listing every missing name). -/
def deployAfterCompile (compiledEnvVars : List String)
    (fetchedVariables : Option (List (String × String))) :
    List DeployStep × Option (List String) :=
  match fetchedVariables with
  | none =>
    ([DeployStep.checkEnvVars, DeployStep.initDeployment, DeployStep.buildImage,
      DeployStep.startIndexing, DeployStep.waitForDeployment], none)
  | some registeredVariables =>
    let missing := missingEnvironmentVariables compiledEnvVars registeredVariables
    if missing.length > 0 then ([DeployStep.checkEnvVars], some missing)
    else
      ([DeployStep.checkEnvVars, DeployStep.initDeployment, DeployStep.buildImage,
        DeployStep.startIndexing, DeployStep.waitForDeployment], none)

/-! ### Dependency gathering (`gatherRequiredDependencies`) -/

/-- One entry of `metaOutput.imports` in the esbuild metafile: its kind
(e.g. `"require-call"`), whether esbuild left it external, and the import
path. -/
structure ImportRecord where
  kind : String
  external : Bool
  path : String
deriving DecidableEq

/-- JavaScript truthiness of an optional version string: `undefined` and the
empty string are falsy. -/
def truthy : Option String → Bool
  | none => false
  | some v => !(v == "")

/-- `if (file.kind !== "require-call" || !file.external) continue` inverted:
the imports the loop does not skip. -/
def isExternalRequire (f : ImportRecord) : Bool :=
  f.kind == "require-call" && f.external

/-- The version resolution of one package name: use the project's own
declared version when truthy (`externalDependencyVersion`), otherwise the
CLI tool's own pinned version when truthy (`internalDependencyVersion`),
otherwise resolve to nothing (the module is silently omitted). -/
def resolvePinnedVersion (externalVersion internalVersion : Option String) : Option String :=
  if truthy externalVersion then externalVersion
  else if truthy internalVersion then internalVersion
  else none

/-- The `for (const file of imports)` loop of `gatherRequiredDependencies`,
with the accumulated `dependencies` record as an association list.
`detect` is `detectPackageNameFromImportPath` (defined outside this
repository's sources; the claims do not depend on its behaviour, so it is
abstracted as a parameter). -/
def gatherRequiredDependenciesAux (detect : String → String)
    (externalDependencies cliDependencies : List (String × String)) :
    List ImportRecord → List (String × String) → List (String × String)
  | [], dependencies => dependencies
  | f :: rest, dependencies =>
    if isExternalRequire f then
      let packageName := detect f.path
      if truthy (dependencies.lookup packageName) then
        gatherRequiredDependenciesAux detect externalDependencies cliDependencies rest dependencies
      else
        match resolvePinnedVersion (externalDependencies.lookup packageName)
            (cliDependencies.lookup packageName) with
        | some v =>
          gatherRequiredDependenciesAux detect externalDependencies cliDependencies rest
            (dependencies ++ [(packageName, v)])
        | none =>
          gatherRequiredDependenciesAux detect externalDependencies cliDependencies rest dependencies
    else gatherRequiredDependenciesAux detect externalDependencies cliDependencies rest dependencies

/-- `gatherRequiredDependencies(imports, externalPackageJson)`:
`externalPackageJson` is the target project's `package.json` (absent when the
file could not be read; `externalPackageJson?.dependencies ?? {}` is then the
empty map) and `cliDependencies` is the CLI tool's own `packageJson.dependencies`. -/
def gatherRequiredDependencies (detect : String → String) (imports : List ImportRecord)
    (externalPackageJson : Option (List (String × String)))
    (cliDependencies : List (String × String)) : List (String × String) :=
  gatherRequiredDependenciesAux detect (externalPackageJson.getD []) cliDependencies imports []

/-! ### The content hash of `compileProject` -/

/-- Ordering of dependency entries used by
`Object.entries(dependencies).sort(([a], [b]) => a.localeCompare(b))`:
compare the package-name keys. -/
def depKeyLE (a b : String × String) : Prop := a.1 ≤ b.1

instance : DecidableRel depKeyLE := fun a b => inferInstanceAs (Decidable (a.1 ≤ b.1))

instance : IsTotal (String × String) depKeyLE := ⟨fun a b => le_total a.1 b.1⟩

instance : IsTrans (String × String) depKeyLE := ⟨fun _ _ _ hab hbc => le_trans hab hbc⟩

/-- Strict version of `depKeyLE`, used to show that sorting a
duplicate-free dependency map is canonical. -/
def depKeyLT (a b : String × String) : Prop := a.1 < b.1

instance : IsAntisymm (String × String) depKeyLT := ⟨fun _ _ h₁ h₂ => (lt_asymm h₁ h₂).elim⟩

/-- `Object.entries(dependencies).sort(([a], [b]) => a.localeCompare(b))`:
the dependency map serialised in sorted key order. -/
def sortDependenciesByKey (deps : List (String × String)) : List (String × String) :=
  List.insertionSort depKeyLE deps

/-- `JSON.stringify(sortedDependencies)` modelled up to an injective,
order-sensitive encoding of an association list. -/
def serializeDependencies (deps : List (String × String)) : String :=
  String.intercalate "," (deps.map (fun kv => kv.1 ++ ":" ++ kv.2))

/-- The byte stream fed to `createHash("sha256")` by `compileProject`: the
entry-point bundle text, then the worker bundle text, then the
sorted-and-serialised dependency map. -/
def contentHasherInput (entryPointText workerText : String)
    (dependencies : List (String × String)) : String :=
  entryPointText ++ workerText ++ serializeDependencies (sortDependenciesByKey dependencies)

/-- `contentHasher.digest("hex")`.  The SHA-256 digest is some fixed function
of the hasher's input bytes; the claims hold for every such function, so it
is taken as a parameter. -/
def computeContentHash (digest : String → String) (entryPointText workerText : String)
    (dependencies : List (String × String)) : String :=
  digest (contentHasherInput entryPointText workerText dependencies)

/-! ### The background worker registry (`CreateBackgroundWorkerService`) -/

/-- `QueueOptions` of a declared task queue: every field is optional
(the source reads `task.queue?.name`, `task.queue?.concurrencyLimit` and
`task.queue?.rateLimit` independently). -/
structure QueueConfig where
  name : Option String
  concurrencyLimit : Option Nat
  rateLimit : Option Nat
deriving DecidableEq

/-- A `TaskResource` of the registration metadata, with exactly the fields
the registry reads: `id`, `filePath`, `exportName`, `retry` and `queue`.
The retry options are carried opaquely (the registry copies them into the
task row without inspecting them), so they are modelled as an opaque
string. -/
structure TaskResource where
  id : String
  filePath : String
  exportName : String
  retry : Option String
  queue : Option QueueConfig
deriving DecidableEq

/-- `body.metadata` of a `CreateBackgroundWorkerRequestBody`. -/
structure WorkerMetadata where
  contentHash : String
  packageVersion : String
  cliPackageVersion : Option String
  tasks : List TaskResource
deriving DecidableEq

/-- The body of the worker-registration request. -/
structure CreateBackgroundWorkerRequestBody where
  metadata : WorkerMetadata
deriving DecidableEq

/-- A `BackgroundWorker` database row.  `id` is the primary key, `createdAt`
a logical timestamp (the registry orders workers by `createdAt` descending). -/
structure BackgroundWorker where
  id : Nat
  friendlyId : String
  version : Nat
  runtimeEnvironmentId : String
  projectId : String
  contentHash : String
  cliVersion : Option String
  sdkVersion : String
  createdAt : Nat
deriving DecidableEq

/-- A `BackgroundWorkerTask` database row. -/
structure BackgroundWorkerTask where
  id : Nat
  friendlyId : String
  projectId : String
  runtimeEnvironmentId : String
  workerId : Nat
  slug : String
  filePath : String
  exportName : String
  retryConfig : Option String
  queueConfig : Option QueueConfig
deriving DecidableEq

/-- The queue `type` column: `NAMED` when the task declared a queue name,
`VIRTUAL` for the per-task default queue. -/
inductive QueueType where
  | NAMED
  | VIRTUAL
deriving DecidableEq

/-- A `TaskQueue` database row, unique per
`(runtimeEnvironmentId, name)`. -/
structure TaskQueue where
  id : Nat
  friendlyId : String
  name : String
  concurrencyLimit : Option Nat
  rateLimit : Option Nat
  runtimeEnvironmentId : String
  projectId : String
  type : QueueType
deriving DecidableEq

/-- A `Project` row: `externalRef` is the project ref the caller passes,
`environments` the ids of its runtime environments. -/
structure Project where
  id : String
  externalRef : String
  environments : List String
deriving DecidableEq

/-- One recorded `marqs.updateQueueConcurrency(env, queueName, limit)`
invocation against the live admission layer. -/
structure MarqsCall where
  envId : String
  queueName : String
  concurrencyLimit : Nat
deriving DecidableEq

/-- The persistent state the registry touches: the Prisma tables it reads
and writes, the log of admission-layer calls, a fresh row-id source and a
logical clock for `createdAt`. -/
structure DbState where
  projects : List Project
  workers : List BackgroundWorker
  tasks : List BackgroundWorkerTask
  queues : List TaskQueue
  marqsCalls : List MarqsCall
  nextRowId : Nat
  now : Nat
deriving DecidableEq

/-- Modelled from the spec: `generateFriendlyId` (imported from
`../friendlyIdentifiers`, which is not under the provided sources) produces
a fresh human-readable identifier from a tag; modelled as the tag joined to
the fresh row id. -/
def generateFriendlyId (tag : String) (n : Nat) : String :=
  tag ++ "_" ++ toString n

/-- Modelled from the spec: `calculateNextBuildVersion` (imported from
`../utils/calculateNextBuildVersion`, which is not under the provided
sources).  The spec fixes only that it is a strictly increasing successor
of the latest version label per environment (the numeric/date scheme is an
implementation choice), so it is modelled as the successor on `Nat`. -/
def calculateNextBuildVersion : Option Nat → Nat
  | none => 1
  | some v => v + 1

/-- The `project.findUniqueOrThrow` lookup: the project whose `externalRef`
is `projectRef` and whose environments contain the caller's environment. -/
def findProject (s : DbState) (projectRef environmentId : String) : Option Project :=
  s.projects.find? (fun p => p.externalRef == projectRef && p.environments.contains environmentId)

/-- The filter of the `backgroundWorkers` include: rows of this project in
this runtime environment. -/
def workerMatches (projectId environmentId : String) (w : BackgroundWorker) : Bool :=
  w.projectId == projectId && w.runtimeEnvironmentId == environmentId

/-- Fold computing the row `orderBy: { createdAt: "desc" }, take: 1`
selects: the matching worker with the greatest `createdAt`. -/
def latestWorkerAux (projectId environmentId : String) :
    List BackgroundWorker → Option BackgroundWorker → Option BackgroundWorker
  | [], acc => acc
  | w :: rest, acc =>
    if workerMatches projectId environmentId w then
      match acc with
      | none => latestWorkerAux projectId environmentId rest (some w)
      | some a =>
        if a.createdAt < w.createdAt then latestWorkerAux projectId environmentId rest (some w)
        else latestWorkerAux projectId environmentId rest (some a)
    else latestWorkerAux projectId environmentId rest acc

/-- `project.backgroundWorkers[0]` under
`orderBy: { createdAt: "desc" }, take: 1`. -/
def latestWorker (projectId environmentId : String) (workers : List BackgroundWorker) :
    Option BackgroundWorker :=
  latestWorkerAux projectId environmentId workers none

/-- Prisma `update` semantics for a scalar field: an `undefined` value in
the update data leaves the column unchanged, a present value overwrites
it. -/
def prismaSet (newValue oldValue : Option Nat) : Option Nat :=
  match newValue with
  | none => oldValue
  | some v => some v

/-- The `(runtimeEnvironmentId, name)` unique key of `taskQueue.upsert`. -/
def queueKeyMatches (environmentId queueName : String) (q : TaskQueue) : Bool :=
  q.runtimeEnvironmentId == environmentId && q.name == queueName

/-- `prisma.taskQueue.upsert` as called by `createBackgroundTasks`: keyed by
`(runtimeEnvironmentId, name)`; on conflict update `concurrencyLimit` and
`rateLimit` from the task's queue options (skipping `undefined` fields), on
miss create the row with `type` `NAMED` exactly when the task declared a
queue name.  Returns the resulting row and the new state. -/
def upsertTaskQueue (s : DbState) (environmentId projectId queueName : String)
    (cfg : Option QueueConfig) : TaskQueue × DbState :=
  match s.queues.find? (queueKeyMatches environmentId queueName) with
  | some q =>
    let updateRow := fun x : TaskQueue =>
      { x with
        concurrencyLimit := prismaSet (cfg.bind (fun c => c.concurrencyLimit)) x.concurrencyLimit
        rateLimit := prismaSet (cfg.bind (fun c => c.rateLimit)) x.rateLimit }
    (updateRow q,
      { s with
        queues := s.queues.map (fun x =>
          if queueKeyMatches environmentId queueName x then updateRow x else x) })
  | none =>
    let q : TaskQueue :=
      { id := s.nextRowId
        friendlyId := generateFriendlyId "queue" s.nextRowId
        name := queueName
        concurrencyLimit := cfg.bind (fun c => c.concurrencyLimit)
        rateLimit := cfg.bind (fun c => c.rateLimit)
        runtimeEnvironmentId := environmentId
        projectId := projectId
        type := if (cfg.bind (fun c => c.name)).isSome then QueueType.NAMED else QueueType.VIRTUAL }
    (q, { s with queues := s.queues ++ [q], nextRowId := s.nextRowId + 1 })

/-- One iteration of the `for (const task of tasks)` loop of
`createBackgroundTasks`: create the `BackgroundWorkerTask` row, upsert the
task's queue (name defaulting to `task/<id>`), and, when the resulting
row's concurrency limit is truthy, call
`marqs.updateQueueConcurrency(env, taskQueue.name, taskQueue.concurrencyLimit)`. -/
def registerOneTask (t : TaskResource) (worker : BackgroundWorker) (envId : String)
    (s : DbState) : DbState :=
  let taskRow : BackgroundWorkerTask :=
    { id := s.nextRowId
      friendlyId := generateFriendlyId "task" s.nextRowId
      projectId := worker.projectId
      runtimeEnvironmentId := worker.runtimeEnvironmentId
      workerId := worker.id
      slug := t.id
      filePath := t.filePath
      exportName := t.exportName
      retryConfig := t.retry
      queueConfig := t.queue }
  let s₁ := { s with tasks := s.tasks ++ [taskRow], nextRowId := s.nextRowId + 1 }
  let queueName := (t.queue.bind (fun c => c.name)).getD ("task/" ++ t.id)
  let res := upsertTaskQueue s₁ worker.runtimeEnvironmentId worker.projectId queueName t.queue
  match res.1.concurrencyLimit with
  | some l =>
    if l ≠ 0 then
      { res.2 with marqsCalls := res.2.marqsCalls ++ [⟨envId, res.1.name, l⟩] }
    else res.2
  | none => res.2

/-- `createBackgroundTasks(tasks, worker, env, prisma)`: the loop over the
declared tasks, in order. -/
def createBackgroundTasks (tasks : List TaskResource) (worker : BackgroundWorker)
    (envId : String) (s : DbState) : DbState :=
  match tasks with
  | [] => s
  | t :: rest => createBackgroundTasks rest worker envId (registerOneTask t worker envId s)

/-- The non-dedup path of `CreateBackgroundWorkerService.call`: compute the
next version, create the `BackgroundWorker` row, then create its tasks and
queues. -/
def createWorkerPath (s : DbState) (project : Project) (environmentId : String)
    (body : CreateBackgroundWorkerRequestBody) (latest : Option BackgroundWorker) :
    Option (BackgroundWorker × DbState) :=
  let nextVersion := calculateNextBuildVersion (latest.map (fun w => w.version))
  let worker : BackgroundWorker :=
    { id := s.nextRowId
      friendlyId := generateFriendlyId "worker" s.nextRowId
      version := nextVersion
      runtimeEnvironmentId := environmentId
      projectId := project.id
      contentHash := body.metadata.contentHash
      cliVersion := body.metadata.cliPackageVersion
      sdkVersion := body.metadata.packageVersion
      createdAt := s.now }
  let s₁ := { s with
    workers := s.workers ++ [worker]
    nextRowId := s.nextRowId + 1
    now := s.now + 1 }
  some (worker, createBackgroundTasks body.metadata.tasks worker environmentId s₁)

namespace CreateBackgroundWorkerService

/-- `CreateBackgroundWorkerService.call(projectRef, environment, body)`:
look up the project (throw — `none` — when absent), load the latest worker
of this environment, return it unchanged when its `contentHash` equals
`body.metadata.contentHash`, and otherwise create the next version together
with its task and queue rows. -/
def call (s : DbState) (projectRef environmentId : String)
    (body : CreateBackgroundWorkerRequestBody) : Option (BackgroundWorker × DbState) :=
  match findProject s projectRef environmentId with
  | none => none
  | some project =>
    match latestWorker project.id environmentId s.workers with
    | some lw =>
      if lw.contentHash == body.metadata.contentHash then some (lw, s)
      else createWorkerPath s project environmentId body (some lw)
    | none => createWorkerPath s project environmentId body none

end CreateBackgroundWorkerService

/-! ### The coordinator wire-protocol schemas (`schemas.ts`) -/

/-- The shape of a zod field type as written in the schema source.  `ref`
and `refList` name a schema imported from another module (`TaskResource`,
`ProdTaskRunExecutionPayload`, ...), `obj` a nested `z.object`. -/
inductive FieldTy where
  | str
  | strOpt
  | num
  | bool
  | strList
  | anyTy
  | ref (schemaName : String)
  | refList (schemaName : String)
  | obj (fields : List (String × FieldTy))

/-- The version tag of a message schema:
`z.literal(literal).default(defaultValue)`. -/
structure VersionField where
  literal : String
  defaultValue : Option String
deriving DecidableEq, BEq

/-- Parsing an optional incoming `version` value against a `VersionField`:
an absent value parses to the zod default, a present value parses only when
it equals the literal. -/
def parseVersionTag (f : VersionField) : Option String → Option String
  | none => f.defaultValue
  | some s => if s = f.literal then some s else none

/-- The `version: z.literal("v1").default("v1")` tag every message in
`schemas.ts` carries. -/
def v1Version : VersionField := ⟨"v1", some "v1"⟩

/-- The callback schema attached to a message, when any: `z.void()`, a
plain object, or the `z.discriminatedUnion("success", ...)` envelope whose
two branches carry the listed fields besides the `success` discriminant. -/
inductive CallbackSpec where
  | noCallback
  | voidCallback
  | plainCallback (fields : List (String × FieldTy))
  | successUnion (failureExtraFields successExtraFields : List (String × FieldTy))

/-- One message schema: its version tag, its payload fields besides
`version`, and its callback schema. -/
structure MessageSpec where
  version : VersionField
  payloadFields : List (String × FieldTy)
  callback : CallbackSpec

/-- `CoordinatorToPlatformMessages` from `schemas.ts`. -/
def CoordinatorToPlatformMessages : List (String × MessageSpec) :=
  [("LOG",
    { version := v1Version
      payloadFields := [("metadata", FieldTy.anyTy), ("text", FieldTy.str)]
      callback := CallbackSpec.noCallback }),
   ("CREATE_WORKER",
    { version := v1Version
      payloadFields :=
        [("projectRef", FieldTy.str), ("envId", FieldTy.str), ("deploymentId", FieldTy.str),
         ("metadata", FieldTy.obj
           [("cliPackageVersion", FieldTy.strOpt), ("contentHash", FieldTy.str),
            ("packageVersion", FieldTy.str), ("tasks", FieldTy.refList "TaskResource")])]
      callback := CallbackSpec.successUnion [] [] }),
   ("READY_FOR_EXECUTION",
    { version := v1Version
      payloadFields := [("attemptId", FieldTy.str)]
      callback := CallbackSpec.successUnion []
        [("payload", FieldTy.ref "ProdTaskRunExecutionPayload")] }),
   ("TASK_RUN_COMPLETED",
    { version := v1Version
      payloadFields :=
        [("execution", FieldTy.ref "ProdTaskRunExecution"),
         ("completion", FieldTy.ref "TaskRunExecutionResult")]
      callback := CallbackSpec.noCallback }),
   ("TASK_HEARTBEAT",
    { version := v1Version
      payloadFields := [("attemptFriendlyId", FieldTy.str)]
      callback := CallbackSpec.noCallback }),
   ("CHECKPOINT_CREATED",
    { version := v1Version
      payloadFields :=
        [("attemptId", FieldTy.str), ("docker", FieldTy.bool), ("location", FieldTy.str),
         ("reason", FieldTy.strOpt)]
      callback := CallbackSpec.noCallback })]

/-- `PlatformToCoordinatorMessages` from `schemas.ts`. -/
def PlatformToCoordinatorMessages : List (String × MessageSpec) :=
  [("RESUME",
    { version := v1Version
      payloadFields :=
        [("attemptId", FieldTy.str), ("image", FieldTy.str),
         ("completions", FieldTy.refList "TaskRunExecutionResult"),
         ("executions", FieldTy.refList "TaskRunExecution")]
      callback := CallbackSpec.noCallback })]

/-- `ProdWorkerToCoordinatorMessages` from `schemas.ts`. -/
def ProdWorkerToCoordinatorMessages : List (String × MessageSpec) :=
  [("LOG",
    { version := v1Version
      payloadFields := [("text", FieldTy.str)]
      callback := CallbackSpec.voidCallback }),
   ("INDEX_TASKS",
    { version := v1Version
      payloadFields :=
        [("deploymentId", FieldTy.str), ("tasks", FieldTy.refList "TaskResource"),
         ("packageVersion", FieldTy.str)]
      callback := CallbackSpec.successUnion [] [] }),
   ("READY_FOR_EXECUTION",
    { version := v1Version
      payloadFields := [("attemptId", FieldTy.str)]
      callback := CallbackSpec.noCallback }),
   ("TASK_HEARTBEAT",
    { version := v1Version
      payloadFields := [("attemptFriendlyId", FieldTy.str)]
      callback := CallbackSpec.noCallback }),
   ("WAIT_FOR_BATCH",
    { version := v1Version
      payloadFields := [("id", FieldTy.str), ("runs", FieldTy.strList)]
      callback := CallbackSpec.noCallback }),
   ("WAIT_FOR_DURATION",
    { version := v1Version
      payloadFields := [("ms", FieldTy.num)]
      callback := CallbackSpec.successUnion [] [] }),
   ("WAIT_FOR_TASK",
    { version := v1Version
      payloadFields := [("id", FieldTy.str)]
      callback := CallbackSpec.noCallback })]

/-- `CoordinatorToProdWorkerMessages` from `schemas.ts`. -/
def CoordinatorToProdWorkerMessages : List (String × MessageSpec) :=
  [("RESUME",
    { version := v1Version
      payloadFields :=
        [("attemptId", FieldTy.str), ("image", FieldTy.str),
         ("completions", FieldTy.refList "TaskRunExecutionResult"),
         ("executions", FieldTy.refList "TaskRunExecution")]
      callback := CallbackSpec.noCallback }),
   ("EXECUTE_TASK_RUN",
    { version := v1Version
      payloadFields := [("executionPayload", FieldTy.ref "ProdTaskRunExecutionPayload")]
      callback := CallbackSpec.successUnion []
        [("completion", FieldTy.ref "TaskRunExecutionResult")] })]

/-- All message schemas of the coordinator wire protocol: the channels the
coordinator speaks on either side. -/
def coordinatorProtocolMessages : List (String × MessageSpec) :=
  CoordinatorToPlatformMessages ++ PlatformToCoordinatorMessages ++
    ProdWorkerToCoordinatorMessages ++ CoordinatorToProdWorkerMessages

/-- A message carries the `v1` version tag. -/
def messageVersionIsV1 (m : MessageSpec) : Bool :=
  m.version == v1Version

/-- If the message's callback is the success-discriminated envelope, its
`success: false` branch carries no fields beyond the discriminant. -/
def failureBranchCarriesOnlyDiscriminant (m : MessageSpec) : Bool :=
  match m.callback with
  | CallbackSpec.successUnion failureExtraFields _ => failureExtraFields.isEmpty
  | _ => true

/-! ### Concrete inputs used by witnesses and counterexamples -/

/-- A project with one runtime environment. -/
def exampleProject : Project :=
  { id := "proj-1", externalRef := "proj-ref", environments := ["env-1"] }

/-- The registry state before any registration. -/
def exampleState : DbState :=
  { projects := [exampleProject], workers := [], tasks := [], queues := [],
    marqsCalls := [], nextRowId := 0, now := 0 }

/-- A registration body with the given content hash and no tasks. -/
def bodyWithHash (h : String) : CreateBackgroundWorkerRequestBody :=
  { metadata :=
    { contentHash := h, packageVersion := "3.0.0", cliPackageVersion := some "3.0.0",
      tasks := [] } }

/-- The worker row the first registration of `bodyWithHash "A"` creates. -/
def exampleWorkerA : BackgroundWorker :=
  { id := 0, friendlyId := "worker_0", version := 1, runtimeEnvironmentId := "env-1",
    projectId := "proj-1", contentHash := "A", cliVersion := some "3.0.0",
    sdkVersion := "3.0.0", createdAt := 0 }

/-- The state after the first registration of `bodyWithHash "A"`. -/
def exampleStateA : DbState :=
  { projects := [exampleProject], workers := [exampleWorkerA], tasks := [], queues := [],
    marqsCalls := [], nextRowId := 1, now := 1 }

/-- The worker row the first registration of `bodyWithHash "B"` creates. -/
def exampleWorkerB : BackgroundWorker :=
  { id := 0, friendlyId := "worker_0", version := 1, runtimeEnvironmentId := "env-1",
    projectId := "proj-1", contentHash := "B", cliVersion := some "3.0.0",
    sdkVersion := "3.0.0", createdAt := 0 }

/-- The state after the first registration of `bodyWithHash "B"`. -/
def exampleStateB : DbState :=
  { projects := [exampleProject], workers := [exampleWorkerB], tasks := [], queues := [],
    marqsCalls := [], nextRowId := 1, now := 1 }

/-- A task declaring no queue name but a concurrency limit of 5. -/
def taskUnnamedLimit : TaskResource :=
  { id := "t1", filePath := "/t1.ts", exportName := "run", retry := none,
    queue := some { name := none, concurrencyLimit := some 5, rateLimit := none } }

/-- A task declaring the queue `{name: "shared", concurrencyLimit: 5}`. -/
def taskShared : TaskResource :=
  { id := "t1", filePath := "/t1.ts", exportName := "run", retry := none,
    queue := some { name := some "shared", concurrencyLimit := some 5, rateLimit := none } }

/-- A task declaring no queue at all. -/
def taskNoQueue : TaskResource :=
  { id := "t1", filePath := "/t1.ts", exportName := "run", retry := none, queue := none }

/-- Queue options carrying only a concurrency limit of 3. -/
def limitOnlyConfig3 : QueueConfig := { name := some "shared", concurrencyLimit := some 3, rateLimit := none }

/-- Queue options carrying only a concurrency limit of 5. -/
def limitOnlyConfig5 : QueueConfig := { name := some "shared", concurrencyLimit := some 5, rateLimit := none }

/-! ### Theorems: deployment polling (C2, C10) -/

/-- Helper: when every poll succeeds with a status other than `DEPLOYED`,
the loop can only end with no value. -/
theorem waitLoop_never_deployed (getDeployment : Nat → ApiResult DeploymentRecord)
    (timeoutInSeconds : Nat)
    (h : ∀ k, ∃ d, getDeployment k = ApiResult.success d ∧
      d.status ≠ DeploymentStatus.DEPLOYED) :
    ∀ (fuel k elapsedMs : Nat),
      waitLoop getDeployment timeoutInSeconds k elapsedMs fuel = PollOutcome.incomplete := by
  intro fuel
  induction fuel with
  | zero => intro k e; rfl
  | succ n ih =>
    intro k e
    obtain ⟨d, hd, hs⟩ := h k
    by_cases ht : e > timeoutInSeconds * 1000
    · simp [waitLoop, ht]
    · simp [waitLoop, ht, hd, hs, ih]

/-- C2 (counterexample): a deployment whose status is `ERROR` on every poll
yields the same `incomplete` outcome as one that stays `PENDING` until the
timeout — the loop never inspects `ERROR`, so an explicit `ERROR` status is
not reported as a distinct outcome from a timeout. -/
theorem C2_counterexample :
    waitForDeploymentToComplete (fun _ => ApiResult.success ⟨DeploymentStatus.ERROR⟩)
        defaultTimeoutInSeconds = PollOutcome.incomplete ∧
    waitForDeploymentToComplete (fun _ => ApiResult.success ⟨DeploymentStatus.PENDING⟩)
        defaultTimeoutInSeconds = PollOutcome.incomplete := by
  exact ⟨by decide, by decide⟩

/-- C2 (amended): `waitForDeploymentToComplete` polls at a fixed 1-second
interval with a default 60-second timeout; for every deployment whose
status never reaches `DEPLOYED` within the timeout (an explicit `ERROR`
status included) it returns the `incomplete` result (no value) rather than
throwing — `ERROR` is not detected and ends in the same outcome as a
timeout. -/
theorem C2_amended_theorem :
    pollIntervalMs = 1000 ∧ defaultTimeoutInSeconds = 60 ∧
    ∀ (getDeployment : Nat → ApiResult DeploymentRecord) (timeoutInSeconds : Nat),
      (∀ k, ∃ d, getDeployment k = ApiResult.success d ∧
        d.status ≠ DeploymentStatus.DEPLOYED) →
      waitForDeploymentToComplete getDeployment timeoutInSeconds = PollOutcome.incomplete :=
  ⟨rfl, rfl, fun gd T h => waitLoop_never_deployed gd T h (T + 2) 0 0⟩

/-- Witness for C2 (amended) at an all-`ERROR` status stream. -/
theorem C2_amended_witness :
    waitForDeploymentToComplete (fun _ => ApiResult.success ⟨DeploymentStatus.ERROR⟩)
      defaultTimeoutInSeconds = PollOutcome.incomplete :=
  C2_amended_theorem.2.2 _ defaultTimeoutInSeconds
    (fun _ => ⟨⟨DeploymentStatus.ERROR⟩, rfl, by decide⟩)

/-- Helper: a failed poll response inside the timeout window makes the loop
throw that response's error at once. -/
theorem waitLoop_throws (getDeployment : Nat → ApiResult DeploymentRecord)
    (timeoutInSeconds : Nat) (e : String) :
    ∀ (k fuel k₀ e₀ : Nat), k < fuel →
      (∀ j, j ≤ k → e₀ + j * pollIntervalMs ≤ timeoutInSeconds * 1000) →
      getDeployment (k₀ + k) = ApiResult.failure e →
      (∀ j, j < k → ∃ d, getDeployment (k₀ + j) = ApiResult.success d ∧
        d.status ≠ DeploymentStatus.DEPLOYED) →
      waitLoop getDeployment timeoutInSeconds k₀ e₀ fuel = PollOutcome.thrown e := by
  intro k
  induction k with
  | zero =>
    intro fuel k₀ e₀ hfuel htime hfail _
    obtain ⟨n, rfl⟩ : ∃ n, fuel = n + 1 := ⟨fuel - 1, by omega⟩
    have ht : ¬ e₀ > timeoutInSeconds * 1000 := by
      have := htime 0 (Nat.le_refl 0)
      simp [pollIntervalMs] at this
      omega
    rw [Nat.add_zero] at hfail
    simp [waitLoop, ht, hfail]
  | succ k ih =>
    intro fuel k₀ e₀ hfuel htime hfail hprev
    obtain ⟨n, rfl⟩ : ∃ n, fuel = n + 1 := ⟨fuel - 1, by omega⟩
    obtain ⟨d, hd, hs⟩ := hprev 0 (Nat.succ_pos k)
    rw [Nat.add_zero] at hd
    have ht : ¬ e₀ > timeoutInSeconds * 1000 := by
      have := htime 0 (Nat.zero_le _)
      simp [pollIntervalMs] at this
      omega
    have hrec := ih n (k₀ + 1) (e₀ + pollIntervalMs) (by omega)
      (fun j hj => by
        have := htime (j + 1) (by omega)
        simp [pollIntervalMs] at this ⊢
        omega)
      (by
        have harith : k₀ + 1 + k = k₀ + (k + 1) := by omega
        rw [harith]
        exact hfail)
      (fun j hj => by
        have harith : k₀ + 1 + j = k₀ + (j + 1) := by omega
        rw [harith]
        exact hprev (j + 1) (by omega))
    simp [waitLoop, ht, hd, hs, hrec]

/-- C10: if some status poll inside `waitForDeploymentToComplete` returns an
unsuccessful response while all earlier polls succeeded without reaching
`DEPLOYED`, the function throws that response's error immediately, rather
than retrying the poll or returning the timeout's `incomplete` result. -/
theorem C10_poll_failure_throws (getDeployment : Nat → ApiResult DeploymentRecord)
    (timeoutInSeconds k : Nat) (e : String)
    (hk : k ≤ timeoutInSeconds)
    (hfail : getDeployment k = ApiResult.failure e)
    (hprev : ∀ j, j < k → ∃ d, getDeployment j = ApiResult.success d ∧
      d.status ≠ DeploymentStatus.DEPLOYED) :
    waitForDeploymentToComplete getDeployment timeoutInSeconds = PollOutcome.thrown e := by
  have h := waitLoop_throws getDeployment timeoutInSeconds e k (timeoutInSeconds + 2) 0 0
    (by omega)
    (fun j hj => by
      have hm := Nat.mul_le_mul_right 1000 (le_trans hj hk)
      simp [pollIntervalMs]
      omega)
    (by simpa using hfail)
    (fun j hj => by simpa using hprev j hj)
  simpa [waitForDeploymentToComplete] using h

/-- Witness for C10: the very first poll fails, and the loop throws that
error. -/
theorem C10_witness :
    waitForDeploymentToComplete (fun _ => ApiResult.failure "boom") defaultTimeoutInSeconds =
      PollOutcome.thrown "boom" :=
  C10_poll_failure_throws (fun _ => ApiResult.failure "boom") defaultTimeoutInSeconds 0 "boom"
    (Nat.zero_le _) rfl (fun j hj => absurd hj (Nat.not_lt_zero j))

/-! ### Theorems: the environment-variable gate (C5) -/

/-- C5: when the compilation references environment variables not all of
which are registered, the deploy command aborts at the env-var gate —
before initializing the deployment and before building any image — and the
single abort payload is exactly the list of missing names. -/
theorem C5_missing_env_gate (compiledEnvVars : List String)
    (registeredVariables : List (String × String))
    (h : missingEnvironmentVariables compiledEnvVars registeredVariables ≠ []) :
    deployAfterCompile compiledEnvVars (some registeredVariables) =
      ([DeployStep.checkEnvVars],
        some (missingEnvironmentVariables compiledEnvVars registeredVariables)) ∧
    DeployStep.initDeployment ∉ (deployAfterCompile compiledEnvVars (some registeredVariables)).1 ∧
    DeployStep.buildImage ∉ (deployAfterCompile compiledEnvVars (some registeredVariables)).1 := by
  have hlen : (missingEnvironmentVariables compiledEnvVars registeredVariables).length > 0 :=
    List.length_pos.mpr h
  refine ⟨by simp [deployAfterCompile, hlen], ?_, ?_⟩ <;> simp [deployAfterCompile, hlen]

/-- Witness for C5: a bundle referencing `{FOO, BAR}` against the
registered set `{FOO}` aborts with exactly `[BAR]`, reported in one
message. -/
theorem C5_witness :
    deployAfterCompile ["FOO", "BAR"] (some [("FOO", "value")]) =
      ([DeployStep.checkEnvVars], some ["BAR"]) ∧
    missingEnvVarsMessage ["BAR"] = "Project missing env vars: BAR. Aborting deployment." :=
  ⟨(C5_missing_env_gate ["FOO", "BAR"] [("FOO", "value")] (by decide)).1, rfl⟩

/-! ### Theorems: the deterministic content hash (C4) -/

/-- Helper: conjunction of two pairwise predicates. -/
theorem pairwise_and_of {α : Type} {R S : α → α → Prop} :
    ∀ {l : List α}, l.Pairwise R → l.Pairwise S → l.Pairwise (fun a b => R a b ∧ S a b) := by
  intro l
  induction l with
  | nil => intro _ _; exact List.Pairwise.nil
  | cons x xs ih =>
    intro hR hS
    rcases hR with _ | ⟨hRx, hRxs⟩
    rcases hS with _ | ⟨hSx, hSxs⟩
    exact List.Pairwise.cons (fun b hb => ⟨hRx b hb, hSx b hb⟩) (ih hRxs hSxs)

/-- Helper: a `depKeyLE`-sorted dependency list with duplicate-free keys is
sorted by the strict key order. -/
theorem sorted_depKeyLT (l : List (String × String)) (hs : l.Sorted depKeyLE)
    (hn : (l.map Prod.fst).Nodup) : l.Sorted depKeyLT := by
  have hne : l.Pairwise (fun a b : String × String => a.1 ≠ b.1) := by
    have h := hn
    rw [List.Nodup, List.pairwise_map] at h
    exact h
  have hand := pairwise_and_of hs hne
  exact hand.imp (fun h => lt_of_le_of_ne h.1 h.2)

/-- Helper: sorting by key is canonical on association lists with
duplicate-free keys — any permutation sorts to the same list. -/
theorem sortDependenciesByKey_perm_eq (d₁ d₂ : List (String × String))
    (hperm : d₁.Perm d₂) (hnodup : (d₁.map Prod.fst).Nodup) :
    sortDependenciesByKey d₁ = sortDependenciesByKey d₂ := by
  have p₁ := List.perm_insertionSort depKeyLE d₁
  have p₂ := List.perm_insertionSort depKeyLE d₂
  have hp : (sortDependenciesByKey d₁).Perm (sortDependenciesByKey d₂) :=
    (p₁.trans hperm).trans p₂.symm
  have hs₁ : (sortDependenciesByKey d₁).Sorted depKeyLE := List.sorted_insertionSort depKeyLE d₁
  have hs₂ : (sortDependenciesByKey d₂).Sorted depKeyLE := List.sorted_insertionSort depKeyLE d₂
  have hn₁ : ((sortDependenciesByKey d₁).map Prod.fst).Nodup :=
    ((p₁.map Prod.fst).nodup_iff).mpr hnodup
  have hn₂ : ((sortDependenciesByKey d₂).map Prod.fst).Nodup :=
    ((hp.map Prod.fst).nodup_iff).mp hn₁
  exact List.eq_of_perm_of_sorted hp (sorted_depKeyLT _ hs₁ hn₁) (sorted_depKeyLT _ hs₂ hn₂)

/-- C4: the content hash is a deterministic function of the two bundle
texts and the dependency map, and permuting the (duplicate-free) dependency
map before hashing does not change the hash, because the dependencies are
serialised in sorted key order before being fed to the hasher.  `digest`
ranges over every function, SHA-256 in particular. -/
theorem C4_content_hash (digest : String → String) (entryPointText workerText : String)
    (d₁ d₂ : List (String × String)) (hperm : d₁.Perm d₂)
    (hnodup : (d₁.map Prod.fst).Nodup) :
    computeContentHash digest entryPointText workerText d₁ =
      computeContentHash digest entryPointText workerText d₁ ∧
    computeContentHash digest entryPointText workerText d₁ =
      computeContentHash digest entryPointText workerText d₂ := by
  refine ⟨rfl, ?_⟩
  unfold computeContentHash contentHasherInput
  rw [sortDependenciesByKey_perm_eq d₁ d₂ hperm hnodup]

/-- Witness for C4: permuting a two-entry dependency map leaves the hash
unchanged. -/
theorem C4_witness :
    computeContentHash (fun s => s) "entry" "worker" [("b", "1.0.0"), ("a", "2.0.0")] =
      computeContentHash (fun s => s) "entry" "worker" [("a", "2.0.0"), ("b", "1.0.0")] :=
  (C4_content_hash (fun s => s) "entry" "worker" [("b", "1.0.0"), ("a", "2.0.0")]
    [("a", "2.0.0"), ("b", "1.0.0")] (by decide) (by decide)).2

/-! ### Theorems: coordinator protocol shapes (C9) -/

/-- C9: every message schema of the coordinator wire protocol carries the
`v1` version tag, which parses only as `"v1"` and defaults to `"v1"` when
absent, and every success-discriminated callback envelope carries no fields
beyond the discriminant on its `success: false` branch. -/
theorem C9_protocol_shapes :
    (coordinatorProtocolMessages.all
      (fun nm => messageVersionIsV1 nm.2 && failureBranchCarriesOnlyDiscriminant nm.2)) = true ∧
    parseVersionTag v1Version none = some "v1" ∧
    ∀ s : String, parseVersionTag v1Version (some s) = if s = "v1" then some "v1" else none := by
  refine ⟨rfl, rfl, fun s => ?_⟩
  by_cases h : s = "v1" <;> simp [parseVersionTag, v1Version, h]


/-! ### Theorems: the background worker registry (C1, C3) -/

/-- Helper: a queue upsert does not touch the project table. -/
theorem upsertTaskQueue_projects (s : DbState) (environmentId projectId queueName : String)
    (cfg : Option QueueConfig) :
    (upsertTaskQueue s environmentId projectId queueName cfg).2.projects = s.projects := by
  unfold upsertTaskQueue
  cases s.queues.find? (queueKeyMatches environmentId queueName) <;> simp

/-- Helper: a queue upsert does not touch the worker table. -/
theorem upsertTaskQueue_workers (s : DbState) (environmentId projectId queueName : String)
    (cfg : Option QueueConfig) :
    (upsertTaskQueue s environmentId projectId queueName cfg).2.workers = s.workers := by
  unfold upsertTaskQueue
  cases s.queues.find? (queueKeyMatches environmentId queueName) <;> simp

/-- Helper: registering one task does not touch the project table. -/
theorem registerOneTask_projects (t : TaskResource) (worker : BackgroundWorker)
    (envId : String) (s : DbState) :
    (registerOneTask t worker envId s).projects = s.projects := by
  simp only [registerOneTask]
  split
  · split <;> simp [upsertTaskQueue_projects]
  · simp [upsertTaskQueue_projects]

/-- Helper: registering one task does not touch the worker table. -/
theorem registerOneTask_workers (t : TaskResource) (worker : BackgroundWorker)
    (envId : String) (s : DbState) :
    (registerOneTask t worker envId s).workers = s.workers := by
  simp only [registerOneTask]
  split
  · split <;> simp [upsertTaskQueue_workers]
  · simp [upsertTaskQueue_workers]

/-- Helper: creating task and queue rows does not touch the project table. -/
theorem createBackgroundTasks_projects (tasks : List TaskResource) :
    ∀ (worker : BackgroundWorker) (envId : String) (s : DbState),
      (createBackgroundTasks tasks worker envId s).projects = s.projects := by
  induction tasks with
  | nil => intro worker envId s; rfl
  | cons t rest ih =>
    intro worker envId s
    rw [createBackgroundTasks, ih, registerOneTask_projects]

/-- Helper: creating task and queue rows does not touch the worker table. -/
theorem createBackgroundTasks_workers (tasks : List TaskResource) :
    ∀ (worker : BackgroundWorker) (envId : String) (s : DbState),
      (createBackgroundTasks tasks worker envId s).workers = s.workers := by
  induction tasks with
  | nil => intro worker envId s; rfl
  | cons t rest ih =>
    intro worker envId s
    rw [createBackgroundTasks, ih, registerOneTask_workers]

/-- Helper: appending a matching worker whose `createdAt` strictly dominates
every list element and the accumulator makes it the latest. -/
theorem latestWorkerAux_append_max (projectId envId : String) (w : BackgroundWorker)
    (hm : workerMatches projectId envId w = true) :
    ∀ (ws : List BackgroundWorker) (acc : Option BackgroundWorker),
      (∀ w' ∈ ws, w'.createdAt < w.createdAt) →
      (∀ a, acc = some a → a.createdAt < w.createdAt) →
      latestWorkerAux projectId envId (ws ++ [w]) acc = some w := by
  intro ws
  induction ws with
  | nil =>
    intro acc _ hacc
    cases acc with
    | none => simp [latestWorkerAux, hm]
    | some a =>
      have hlt := hacc a rfl
      simp [latestWorkerAux, hm, hlt]
  | cons x xs ih =>
    intro acc hws hacc
    have hxlt : x.createdAt < w.createdAt := hws x (List.mem_cons_self x xs)
    have htail : ∀ w' ∈ xs, w'.createdAt < w.createdAt :=
      fun w' hw' => hws w' (List.mem_cons_of_mem x hw')
    rw [List.cons_append]
    by_cases hx : workerMatches projectId envId x = true
    · cases acc with
      | none =>
        simp only [latestWorkerAux, hx, if_true]
        exact ih (some x) htail (fun a ha => by injection ha with h; exact h ▸ hxlt)
      | some a =>
        have halt : a.createdAt < w.createdAt := hacc a rfl
        by_cases hlt : a.createdAt < x.createdAt
        · simp only [latestWorkerAux, hx, if_true, hlt]
          exact ih (some x) htail (fun b hb => by injection hb with h; exact h ▸ hxlt)
        · simp only [latestWorkerAux, hx, if_true, hlt, if_false]
          exact ih (some a) htail (fun b hb => by injection hb with h; exact h ▸ halt)
    · simp only [latestWorkerAux, hx, Bool.false_eq_true, if_false]
      exact ih acc htail hacc

/-- Helper: `latestWorker` of a list extended by a strictly newest matching
worker is that worker. -/
theorem latestWorker_append_max (projectId envId : String) (ws : List BackgroundWorker)
    (w : BackgroundWorker) (hm : workerMatches projectId envId w = true)
    (hws : ∀ w' ∈ ws, w'.createdAt < w.createdAt) :
    latestWorker projectId envId (ws ++ [w]) = some w :=
  latestWorkerAux_append_max projectId envId w hm ws none hws (fun _ ha => nomatch ha)

/-- Helper: when the latest worker of the environment carries the request's
content hash, the registry returns it and leaves the state unchanged. -/
theorem call_dedup_hit (s : DbState) (projectRef environmentId : String)
    (body : CreateBackgroundWorkerRequestBody) (p : Project) (lw : BackgroundWorker)
    (hfp : findProject s projectRef environmentId = some p)
    (hl : latestWorker p.id environmentId s.workers = some lw)
    (hh : lw.contentHash = body.metadata.contentHash) :
    CreateBackgroundWorkerService.call s projectRef environmentId body = some (lw, s) := by
  have hb : (lw.contentHash == body.metadata.contentHash) = true := by
    rw [hh]
    exact beq_self_eq_true _
  simp only [CreateBackgroundWorkerService.call, hfp, hl, hb, if_true]

/-- Helper: after the create path of `CreateBackgroundWorkerService.call`
runs from a state whose workers all predate `now`, an immediate second call
with the same body dedups against the worker just created and returns it
with the state unchanged. -/
theorem call_after_create (s₀ : DbState) (p : Project) (projectRef environmentId : String)
    (body : CreateBackgroundWorkerRequestBody) (latest : Option BackgroundWorker)
    (w : BackgroundWorker) (s₁ : DbState)
    (hwf : ∀ w' ∈ s₀.workers, w'.createdAt < s₀.now)
    (hfp : findProject s₀ projectRef environmentId = some p)
    (h : createWorkerPath s₀ p environmentId body latest = some (w, s₁)) :
    CreateBackgroundWorkerService.call s₁ projectRef environmentId body = some (w, s₁) := by
  simp only [createWorkerPath, Option.some.injEq, Prod.mk.injEq] at h
  obtain ⟨hw, hs⟩ := h
  subst hw
  subst hs
  apply call_dedup_hit
  · show findProject _ projectRef environmentId = some p
    unfold findProject
    rw [createBackgroundTasks_projects]
    exact hfp
  · show latestWorker p.id environmentId _ = some _
    rw [createBackgroundTasks_workers]
    exact latestWorker_append_max p.id environmentId s₀.workers _
      (by simp [workerMatches]) (fun w' hw' => hwf w' hw')
  · rfl

/-- C3: `registerWorker` is idempotent under an unchanged `contentHash`: a
second call immediately after a first call with the identical body returns
the very same worker version and leaves the database state untouched — no
new worker, task or queue rows, no version advance, no admission-layer
calls.  The hypothesis states that the logical clock dominates every stored
`createdAt`, which holds in every reachable state. -/
theorem C3_idempotent (s₀ : DbState) (projectRef environmentId : String)
    (body : CreateBackgroundWorkerRequestBody) (w : BackgroundWorker) (s₁ : DbState)
    (hwf : ∀ w' ∈ s₀.workers, w'.createdAt < s₀.now)
    (h : CreateBackgroundWorkerService.call s₀ projectRef environmentId body = some (w, s₁)) :
    CreateBackgroundWorkerService.call s₁ projectRef environmentId body = some (w, s₁) := by
  simp only [CreateBackgroundWorkerService.call] at h
  cases hfp : findProject s₀ projectRef environmentId with
  | none => simp [hfp] at h
  | some p =>
    simp only [hfp] at h
    cases hlw : latestWorker p.id environmentId s₀.workers with
    | none =>
      simp only [hlw] at h
      exact call_after_create s₀ p projectRef environmentId body none w s₁ hwf hfp h
    | some lw =>
      simp only [hlw] at h
      by_cases hh : (lw.contentHash == body.metadata.contentHash) = true
      · rw [if_pos hh] at h
        simp only [Option.some.injEq, Prod.mk.injEq] at h
        obtain ⟨hw, hs⟩ := h
        subst hw
        subst hs
        exact call_dedup_hit s₀ projectRef environmentId body p _ hfp hlw (eq_of_beq hh)
      · rw [if_neg hh] at h
        exact call_after_create s₀ p projectRef environmentId body (some lw) w s₁ hwf hfp h

/-- Witness for C3: registering `bodyWithHash "B"` on the empty state and
then calling again with the identical body returns the same worker and the
same state. -/
theorem C3_idempotent_witness :
    CreateBackgroundWorkerService.call exampleStateB "proj-ref" "env-1" (bodyWithHash "B") =
      some (exampleWorkerB, exampleStateB) :=
  C3_idempotent exampleState "proj-ref" "env-1" (bodyWithHash "B") exampleWorkerB exampleStateB
    (fun w' hw' => absurd hw' (List.not_mem_nil w'))
    (by decide)

/-- C1 (counterexample): registering content hashes `A`, then `B`, then `A`
again in the same environment creates a third worker (row id 2, version 3)
with content hash `A` instead of returning the first worker (row id 0) —
dedup does not consult workers other than the latest, so two workers with
the same content hash coexist in one environment. -/
theorem C1_counterexample :
    ((CreateBackgroundWorkerService.call exampleState "proj-ref" "env-1" (bodyWithHash "A")).bind
      (fun r₁ =>
        (CreateBackgroundWorkerService.call r₁.2 "proj-ref" "env-1" (bodyWithHash "B")).bind
          (fun r₂ =>
            (CreateBackgroundWorkerService.call r₂.2 "proj-ref" "env-1" (bodyWithHash "A")).map
              (fun r₃ => (r₁.1.contentHash, r₁.1.id, r₃.1.contentHash, r₃.1.id, r₃.1.version,
                r₃.2.workers.length))))) =
      some ("A", 0, "A", 2, 3, 3) := by
  decide

/-- C1 (amended): dedup is only against the most recent worker of the
environment — a `registerWorker` call whose `metadata.contentHash` equals
the `contentHash` of the latest worker (by creation time) returns that
record unchanged without allocating a new version; equality with an older,
superseded worker's hash does not dedup. -/
theorem C1_amended_theorem (s : DbState) (projectRef environmentId : String)
    (body : CreateBackgroundWorkerRequestBody) (p : Project) (lw : BackgroundWorker)
    (hfp : findProject s projectRef environmentId = some p)
    (hl : latestWorker p.id environmentId s.workers = some lw)
    (hh : lw.contentHash = body.metadata.contentHash) :
    CreateBackgroundWorkerService.call s projectRef environmentId body = some (lw, s) :=
  call_dedup_hit s projectRef environmentId body p lw hfp hl hh

/-- Witness for C1 (amended): re-registering hash `A` when the latest worker
already carries hash `A` returns that worker and leaves the state
unchanged. -/
theorem C1_amended_witness :
    CreateBackgroundWorkerService.call exampleStateA "proj-ref" "env-1" (bodyWithHash "A") =
      some (exampleWorkerA, exampleStateA) :=
  C1_amended_theorem exampleStateA "proj-ref" "env-1" (bodyWithHash "A") exampleProject
    exampleWorkerA (by decide) (by decide) rfl

/-! ### Theorems: queue creation and upsert (C6, C7) -/

/-- C6 (counterexample): a task declaring no queue name but a concurrency
limit (`queue: {concurrencyLimit: 5}`) gets a `VIRTUAL` queue `task/t1`
created **with** concurrency limit 5 — not "with no concurrency limit" as
the claim states for every task without a queue name. -/
theorem C6_counterexample :
    ((createBackgroundTasks [taskUnnamedLimit] exampleWorkerA "env-1" exampleStateA).queues.map
      (fun q => (q.name, q.type, q.concurrencyLimit))) =
      [("task/t1", QueueType.VIRTUAL, some 5)] := by
  decide

/-- Helper: a task declaring no queue at all gets a fresh `VIRTUAL` queue
named `task/<id>` with no concurrency limit and no admission-layer call. -/
theorem registerOneTask_noQueue (t : TaskResource) (worker : BackgroundWorker) (envId : String)
    (s : DbState) (hq : t.queue = none)
    (hfresh : s.queues.find?
      (queueKeyMatches worker.runtimeEnvironmentId ("task/" ++ t.id)) = none) :
    ∃ q : TaskQueue,
      (registerOneTask t worker envId s).queues = s.queues ++ [q] ∧
      q.name = "task/" ++ t.id ∧ q.type = QueueType.VIRTUAL ∧ q.concurrencyLimit = none ∧
      (registerOneTask t worker envId s).marqsCalls = s.marqsCalls := by
  simp only [registerOneTask, upsertTaskQueue, hq, Option.none_bind, Option.getD_none, hfresh]
  refine ⟨_, rfl, ?_, ?_, ?_, ?_⟩ <;> simp

/-- Helper: a task declaring a queue name and a nonzero concurrency limit
leaves a queue row with that name and limit (created or updated) and
records exactly one admission-layer call propagating the limit. -/
theorem registerOneTask_namedLimit (t : TaskResource) (worker : BackgroundWorker) (envId : String)
    (s : DbState) (qc : QueueConfig) (nm : String) (l : Nat)
    (hq : t.queue = some qc) (hnm : qc.name = some nm) (hl : qc.concurrencyLimit = some l)
    (hlnz : l ≠ 0) :
    (∃ q ∈ (registerOneTask t worker envId s).queues,
      q.runtimeEnvironmentId = worker.runtimeEnvironmentId ∧ q.name = nm ∧
      q.concurrencyLimit = some l) ∧
    (registerOneTask t worker envId s).marqsCalls = s.marqsCalls ++ [⟨envId, nm, l⟩] := by
  simp only [registerOneTask, upsertTaskQueue, hq, Option.some_bind, hnm, Option.getD_some]
  cases hfind : s.queues.find? (queueKeyMatches worker.runtimeEnvironmentId nm) with
  | none =>
    simp only [hfind, hl]
    rw [if_pos hlnz]
    exact ⟨⟨_, List.mem_append_right _ (List.mem_singleton_self _), rfl, rfl, rfl⟩, rfl⟩
  | some q₀ =>
    have hkey : queueKeyMatches worker.runtimeEnvironmentId nm q₀ = true := List.find?_some hfind
    have hkey' := hkey
    simp only [queueKeyMatches, Bool.and_eq_true, beq_iff_eq] at hkey'
    obtain ⟨henv, hname⟩ := hkey'
    simp only [hfind, hl, prismaSet]
    rw [if_pos hlnz]
    constructor
    · refine ⟨_, List.mem_map_of_mem _ (List.mem_of_find?_eq_some hfind), ?_⟩
      simp only [hkey, if_true]
      refine ⟨?_, ?_, ?_⟩ <;> first | exact henv | exact hname | rfl | trivial
    · simp [hname]

/-- C6 (amended): a task that declares no queue at all gets a fresh
`VIRTUAL` queue named `task/<taskId>` with no concurrency limit; a task
declaring a queue name `nm` and nonzero concurrency limit `l` leaves a
queue row named `nm` with limit `l` (created or updated) and
`updateQueueConcurrency` is invoked with `(environment, nm, l)`. -/
theorem C6_amended_theorem :
    (∀ (t : TaskResource) (worker : BackgroundWorker) (envId : String) (s : DbState),
      t.queue = none →
      s.queues.find? (queueKeyMatches worker.runtimeEnvironmentId ("task/" ++ t.id)) = none →
      ∃ q : TaskQueue,
        (createBackgroundTasks [t] worker envId s).queues = s.queues ++ [q] ∧
        q.name = "task/" ++ t.id ∧ q.type = QueueType.VIRTUAL ∧ q.concurrencyLimit = none) ∧
    (∀ (t : TaskResource) (worker : BackgroundWorker) (envId : String) (s : DbState)
        (qc : QueueConfig) (nm : String) (l : Nat),
      t.queue = some qc → qc.name = some nm → qc.concurrencyLimit = some l → l ≠ 0 →
      (∃ q ∈ (createBackgroundTasks [t] worker envId s).queues,
        q.runtimeEnvironmentId = worker.runtimeEnvironmentId ∧ q.name = nm ∧
        q.concurrencyLimit = some l) ∧
      (createBackgroundTasks [t] worker envId s).marqsCalls =
        s.marqsCalls ++ [⟨envId, nm, l⟩]) := by
  constructor
  · intro t worker envId s hq hfresh
    obtain ⟨q, h1, h2, h3, h4, _⟩ := registerOneTask_noQueue t worker envId s hq hfresh
    exact ⟨q, h1, h2, h3, h4⟩
  · intro t worker envId s qc nm l hq hnm hl hlnz
    exact registerOneTask_namedLimit t worker envId s qc nm l hq hnm hl hlnz

/-- Witness for C6 (amended): the spec's concrete scenario — a task with no
queue gets `VIRTUAL` `task/t1` with no limit; the same task declaring
`{name: "shared", concurrencyLimit: 5}` leaves queue `shared` with limit 5
and one `updateQueueConcurrency("env-1", "shared", 5)` call. -/
theorem C6_amended_witness :
    (∃ q : TaskQueue,
      (createBackgroundTasks [taskNoQueue] exampleWorkerA "env-1" exampleStateA).queues =
        exampleStateA.queues ++ [q] ∧
      q.name = "task/t1" ∧ q.type = QueueType.VIRTUAL ∧ q.concurrencyLimit = none) ∧
    ((∃ q ∈ (createBackgroundTasks [taskShared] exampleWorkerA "env-1" exampleStateA).queues,
        q.runtimeEnvironmentId = exampleWorkerA.runtimeEnvironmentId ∧ q.name = "shared" ∧
        q.concurrencyLimit = some 5) ∧
      (createBackgroundTasks [taskShared] exampleWorkerA "env-1" exampleStateA).marqsCalls =
        exampleStateA.marqsCalls ++ [⟨"env-1", "shared", 5⟩]) :=
  ⟨C6_amended_theorem.1 taskNoQueue exampleWorkerA "env-1" exampleStateA rfl (by decide),
   C6_amended_theorem.2 taskShared exampleWorkerA "env-1" exampleStateA
     ⟨some "shared", some 5, none⟩ "shared" 5 rfl rfl rfl (by decide)⟩

/-- Helper: filtering commutes with a map that does not change whether an
element matches the queue key. -/
theorem filter_map_comm_of_key {p : TaskQueue → Bool} {f : TaskQueue → TaskQueue}
    (hf : ∀ x, p (f x) = p x) :
    ∀ l : List TaskQueue, (l.map f).filter p = (l.filter p).map f := by
  intro l
  induction l with
  | nil => rfl
  | cons x xs ih =>
    simp only [List.map_cons, List.filter_cons, hf x]
    by_cases hx : p x = true
    · simp [hx, ih]
    · simp [hx, ih]

/-- Helper: a list of length at most one containing `a` is `[a]`. -/
theorem eq_singleton_of_length_le_one {α : Type} {l : List α} {a : α}
    (hlen : l.length ≤ 1) (ha : a ∈ l) : l = [a] := by
  cases l with
  | nil => exact absurd ha (List.not_mem_nil a)
  | cons x xs =>
    cases xs with
    | nil =>
      have hax : a = x := List.mem_singleton.mp ha
      rw [hax]
    | cons y ys =>
      simp only [List.length_cons] at hlen
      omega

/-- Helper: upserting a queue with a declared concurrency limit leaves
exactly one row for the key, carrying that limit, whenever the key had at
most one row before. -/
theorem upsertTaskQueue_filter (s : DbState) (environmentId projectId queueName : String)
    (c : QueueConfig) (l : Nat) (hc : c.concurrencyLimit = some l)
    (hwf : (s.queues.filter (queueKeyMatches environmentId queueName)).length ≤ 1) :
    ∃ q : TaskQueue,
      ((upsertTaskQueue s environmentId projectId queueName (some c)).2.queues.filter
        (queueKeyMatches environmentId queueName)) = [q] ∧ q.concurrencyLimit = some l := by
  unfold upsertTaskQueue
  cases hfind : s.queues.find? (queueKeyMatches environmentId queueName) with
  | none =>
    have hnil : s.queues.filter (queueKeyMatches environmentId queueName) = [] := by
      rw [List.filter_eq_nil_iff]
      intro a hmem
      exact (List.find?_eq_none.mp hfind) a hmem
    simp only [hfind]
    refine ⟨⟨s.nextRowId, generateFriendlyId "queue" s.nextRowId, queueName,
      (some c).bind (fun cc => cc.concurrencyLimit), (some c).bind (fun cc => cc.rateLimit),
      environmentId, projectId,
      if ((some c).bind (fun cc => cc.name)).isSome then QueueType.NAMED
      else QueueType.VIRTUAL⟩, ?_, ?_⟩
    · rw [List.filter_append, hnil]
      simp [queueKeyMatches]
    · simp [hc]
  | some q₀ =>
    have hq₀ : queueKeyMatches environmentId queueName q₀ = true := List.find?_some hfind
    have hsingle : s.queues.filter (queueKeyMatches environmentId queueName) = [q₀] :=
      eq_singleton_of_length_le_one hwf
        (List.mem_filter.mpr ⟨List.mem_of_find?_eq_some hfind, hq₀⟩)
    simp only [hfind]
    have hpres : ∀ x : TaskQueue, queueKeyMatches environmentId queueName
        (if queueKeyMatches environmentId queueName x = true then
          { x with
            concurrencyLimit := prismaSet ((some c).bind (fun cc => cc.concurrencyLimit))
              x.concurrencyLimit
            rateLimit := prismaSet ((some c).bind (fun cc => cc.rateLimit)) x.rateLimit }
        else x) = queueKeyMatches environmentId queueName x := by
      intro x
      by_cases hx : queueKeyMatches environmentId queueName x = true
      · simp only [hx, if_true]
        simp [queueKeyMatches] at hx ⊢
        exact hx
      · simp [hx]
    rw [filter_map_comm_of_key hpres, hsingle]
    refine ⟨_, rfl, ?_⟩
    simp [hq₀, prismaSet, hc]

/-- C7: queue upsert is keyed by `(environment, queueName)` — upserting the
same key twice with concurrency limits `l₁` then `l₂` leaves exactly one
queue row for that key, whose limit is `l₂` (the latest upsert's value),
never two rows. -/
theorem C7_upsert_stability (s : DbState)
    (environmentId projectId₁ projectId₂ queueName : String)
    (c₁ c₂ : QueueConfig) (l₁ l₂ : Nat)
    (h₁ : c₁.concurrencyLimit = some l₁) (h₂ : c₂.concurrencyLimit = some l₂)
    (hwf : (s.queues.filter (queueKeyMatches environmentId queueName)).length ≤ 1) :
    (((upsertTaskQueue (upsertTaskQueue s environmentId projectId₁ queueName (some c₁)).2
        environmentId projectId₂ queueName (some c₂)).2.queues.filter
          (queueKeyMatches environmentId queueName)).map (fun q => q.concurrencyLimit)) =
      [some l₂] := by
  obtain ⟨q₁, hq₁, _⟩ := upsertTaskQueue_filter s environmentId projectId₁ queueName c₁ l₁ h₁ hwf
  have hwf₁ : (((upsertTaskQueue s environmentId projectId₁ queueName (some c₁)).2.queues.filter
      (queueKeyMatches environmentId queueName)).length ≤ 1) := by
    rw [hq₁]
    exact le_refl 1
  obtain ⟨q₂, hq₂, hl₂⟩ :=
    upsertTaskQueue_filter _ environmentId projectId₂ queueName c₂ l₂ h₂ hwf₁
  rw [hq₂]
  simp [hl₂]

/-- Witness for C7: upserting `(env-1, shared)` with limit 3 and then limit
5 on the fresh state leaves one row with limit 5. -/
theorem C7_witness :
    (((upsertTaskQueue (upsertTaskQueue exampleState "env-1" "proj-1" "shared"
        (some limitOnlyConfig3)).2 "env-1" "proj-1" "shared"
          (some limitOnlyConfig5)).2.queues.filter
            (queueKeyMatches "env-1" "shared")).map (fun q => q.concurrencyLimit)) =
      [some 5] :=
  C7_upsert_stability exampleState "env-1" "proj-1" "proj-1" "shared" limitOnlyConfig3
    limitOnlyConfig5 3 5 rfl rfl (by decide)

/-! ### Theorems: dependency gathering (C8) -/

/-- Helper: association-list lookup over an append. -/
theorem lookup_append_eq (a : String) (l₁ l₂ : List (String × String)) :
    (l₁ ++ l₂).lookup a =
      match l₁.lookup a with
      | some v => some v
      | none => l₂.lookup a := by
  induction l₁ with
  | nil => simp [List.lookup]
  | cons p t ih =>
    obtain ⟨k, v⟩ := p
    cases h : a == k with
    | true => simp [List.lookup, h]
    | false => simp [List.lookup, h, ih]

/-- Helper: lookup misses exactly the keys not in the list. -/
theorem lookup_eq_none_iff (a : String) (l : List (String × String)) :
    l.lookup a = none ↔ a ∉ l.map Prod.fst := by
  induction l with
  | nil => simp [List.lookup]
  | cons p t ih =>
    obtain ⟨k, v⟩ := p
    cases h : a == k with
    | true =>
      have hak : a = k := eq_of_beq h
      simp [List.lookup, h, hak]
    | false =>
      have hne : a ≠ k := fun hak => by rw [hak] at h; simp at h
      simp [List.lookup, h, ih, hne]

/-- Helper: lookups in a list of nonempty version strings return nonempty
strings. -/
theorem lookup_value_ne_empty {l : List (String × String)} (hl : ∀ p ∈ l, p.2 ≠ "") :
    ∀ (a v : String), l.lookup a = some v → v ≠ "" := by
  induction l with
  | nil => intro a v h; simp [List.lookup] at h
  | cons p t ih =>
    intro a v h
    obtain ⟨k, w⟩ := p
    cases hbe : a == k with
    | true =>
      simp [List.lookup, hbe] at h
      rw [← h]
      exact hl (k, w) (List.mem_cons_self _ _)
    | false =>
      simp [List.lookup, hbe] at h
      exact ih (fun q hq => hl q (List.mem_cons_of_mem _ hq)) a v h

/-- Helper: a resolved pinned version is a truthy (nonempty) string. -/
theorem resolvePinnedVersion_ne_empty {ext cli : Option String} {v : String}
    (h : resolvePinnedVersion ext cli = some v) : v ≠ "" := by
  unfold resolvePinnedVersion at h
  by_cases he : truthy ext = true
  · rw [if_pos he] at h
    rw [h] at he
    simp [truthy] at he
    exact he
  · rw [if_neg he] at h
    by_cases hc : truthy cli = true
    · rw [if_pos hc] at h
      rw [h] at hc
      simp [truthy] at hc
      exact hc
    · rw [if_neg hc] at h
      exact absurd h (by simp)

/-- Helper: the lookup characterisation of the dependency-gathering loop,
for any accumulator of truthy versions. -/
theorem gatherAux_lookup (detect : String → String) (ext cli : List (String × String)) :
    ∀ (imports : List ImportRecord) (acc : List (String × String)) (n : String),
      (∀ p ∈ acc, p.2 ≠ "") →
      (gatherRequiredDependenciesAux detect ext cli imports acc).lookup n =
        (match acc.lookup n with
        | some v => some v
        | none =>
          if imports.any (fun f => isExternalRequire f && (detect f.path == n)) then
            resolvePinnedVersion (ext.lookup n) (cli.lookup n)
          else none) := by
  intro imports
  induction imports with
  | nil =>
    intro acc n hacc
    simp only [gatherRequiredDependenciesAux, List.any_nil]
    cases acc.lookup n <;> simp
  | cons f rest ih =>
    intro acc n hacc
    simp only [gatherRequiredDependenciesAux]
    by_cases hreq : isExternalRequire f = true
    · rw [if_pos hreq]
      by_cases ht : truthy (acc.lookup (detect f.path)) = true
      · rw [if_pos ht]
        rw [ih acc n hacc]
        cases haccn : acc.lookup n with
        | some v => rfl
        | none =>
          have hpn : (detect f.path == n) = false := by
            cases hbe : detect f.path == n with
            | false => rfl
            | true =>
              have heq : detect f.path = n := eq_of_beq hbe
              rw [heq, haccn] at ht
              simp [truthy] at ht
          simp [List.any_cons, hreq, hpn]
      · rw [if_neg ht]
        have hpn_none : acc.lookup (detect f.path) = none := by
          cases hl : acc.lookup (detect f.path) with
          | none => rfl
          | some w =>
            have hw := lookup_value_ne_empty hacc _ _ hl
            rw [hl] at ht
            simp [truthy, hw] at ht
        cases hres : resolvePinnedVersion (ext.lookup (detect f.path))
            (cli.lookup (detect f.path)) with
        | some v =>
          have hinv : ∀ p ∈ acc ++ [(detect f.path, v)], p.2 ≠ "" := by
            intro p hp
            rcases List.mem_append.mp hp with h1 | h2
            · exact hacc p h1
            · rw [List.mem_singleton.mp h2]
              exact resolvePinnedVersion_ne_empty hres
          rw [ih _ n hinv, lookup_append_eq]
          cases haccn : acc.lookup n with
          | some w => rfl
          | none =>
            cases hbe : detect f.path == n with
            | true =>
              have heq : detect f.path = n := eq_of_beq hbe
              have hsing : ([(detect f.path, v)] : List (String × String)).lookup n = some v := by
                simp [List.lookup, heq]
              simp only [hsing]
              rw [heq] at hres
              simp [List.any_cons, hreq, hbe, hres]
            | false =>
              have hne : detect f.path ≠ n := by
                intro hcontra
                rw [hcontra] at hbe
                simp at hbe
              have hbe' : (n == detect f.path) = false := by
                cases hbe2 : n == detect f.path with
                | false => rfl
                | true => exact absurd (eq_of_beq hbe2).symm hne
              have hsing : ([(detect f.path, v)] : List (String × String)).lookup n = none := by
                simp [List.lookup, hbe']
              simp only [hsing]
              simp [List.any_cons, hreq, hbe]
        | none =>
          rw [ih acc n hacc]
          cases haccn : acc.lookup n with
          | some w => rfl
          | none =>
            cases hbe : detect f.path == n with
            | true =>
              have heq : detect f.path = n := eq_of_beq hbe
              rw [heq] at hres
              simp [List.any_cons, hreq, hbe, hres]
            | false =>
              simp [List.any_cons, hreq, hbe]
    · rw [if_neg hreq]
      rw [ih acc n hacc]
      have hf : (isExternalRequire f && (detect f.path == n)) = false := by
        cases hr : isExternalRequire f with
        | true => exact absurd hr hreq
        | false => simp
      cases haccn : acc.lookup n with
      | some w => rfl
      | none => simp [List.any_cons, hf]

/-- Helper: the dependency-gathering loop never records a package name
twice. -/
theorem gatherAux_keys_nodup (detect : String → String) (ext cli : List (String × String)) :
    ∀ (imports : List ImportRecord) (acc : List (String × String)),
      (∀ p ∈ acc, p.2 ≠ "") → (acc.map Prod.fst).Nodup →
      ((gatherRequiredDependenciesAux detect ext cli imports acc).map Prod.fst).Nodup := by
  intro imports
  induction imports with
  | nil => intro acc _ hn; exact hn
  | cons f rest ih =>
    intro acc hacc hnodup
    simp only [gatherRequiredDependenciesAux]
    by_cases hreq : isExternalRequire f = true
    · rw [if_pos hreq]
      by_cases ht : truthy (acc.lookup (detect f.path)) = true
      · rw [if_pos ht]
        exact ih acc hacc hnodup
      · rw [if_neg ht]
        have hpn_none : acc.lookup (detect f.path) = none := by
          cases hl : acc.lookup (detect f.path) with
          | none => rfl
          | some w =>
            have hw := lookup_value_ne_empty hacc _ _ hl
            rw [hl] at ht
            simp [truthy, hw] at ht
        cases hres : resolvePinnedVersion (ext.lookup (detect f.path))
            (cli.lookup (detect f.path)) with
        | none => exact ih acc hacc hnodup
        | some v =>
          apply ih
          · intro p hp
            rcases List.mem_append.mp hp with h1 | h2
            · exact hacc p h1
            · rw [List.mem_singleton.mp h2]
              exact resolvePinnedVersion_ne_empty hres
          · have hpn_not_mem : detect f.path ∉ acc.map Prod.fst :=
              (lookup_eq_none_iff _ _).mp hpn_none
            simp [List.map_append, List.nodup_append, hnodup, hpn_not_mem]
    · rw [if_neg hreq]
      exact ih acc hacc hnodup

/-- C8: for every external require-call import, the gathered dependency map
pins the version resolved first from the project's own `package.json`
dependencies and otherwise from the CLI tool's own, omitting the module
silently when neither declares a (truthy) version; each package name
appears at most once. -/
theorem C8_gather_dependencies (detect : String → String) (imports : List ImportRecord)
    (externalPackageJson : Option (List (String × String)))
    (cliDependencies : List (String × String)) :
    ((gatherRequiredDependencies detect imports externalPackageJson cliDependencies).map
      Prod.fst).Nodup ∧
    ∀ n : String,
      (gatherRequiredDependencies detect imports externalPackageJson cliDependencies).lookup n =
        if imports.any (fun f => isExternalRequire f && (detect f.path == n)) then
          resolvePinnedVersion ((externalPackageJson.getD []).lookup n)
            (cliDependencies.lookup n)
        else none := by
  constructor
  · exact gatherAux_keys_nodup detect (externalPackageJson.getD []) cliDependencies imports []
      (fun p hp => absurd hp (List.not_mem_nil p)) List.nodup_nil
  · intro n
    have h := gatherAux_lookup detect (externalPackageJson.getD []) cliDependencies imports []
      n (fun p hp => absurd hp (List.not_mem_nil p))
    simpa [List.lookup] using h
